import Mathlib

/-!
# Verification of the `data_preprocess` reconciliation pipeline

Shallow embedding of the decision logic of `src/data_preprocess/preprocess.py`
and `src/data_preprocess/generate_bars.py`:

* calendar dates, the America/New_York DST rule (post-2007 US rule, which
  covers every date the repository's hard-coded date window admits), and the
  session-window calculator `get_time_range`;
* file-name date parsing (`parse_file_dates`) and candidate-file selection
  (`find_related_files`), including the exception behaviour of
  `datetime.strptime` on eight-digit substrings that are not valid dates;
* the per-day contract-reconciliation loop of `get_related_trade_records`
  (grouping by `instrument_id`, OHLC flag computation, the `max_ohlc` /
  `candidate_volume` winner-selection loop, and the volume fallback), together
  with the batch driver's date filter, `is_processed` skip and error
  propagation.

Python runtime errors that the code can raise (and never catches) are modelled
with an explicit error type; `Except` is used wherever the Python can throw.
-/

deriving instance DecidableEq for Except

/-- Python runtime errors relevant to the embedded code paths.
`valueError` covers `pd.concat` on an empty list, `Series.idxmax` on an empty
series and `datetime.strptime` on malformed date strings; `typeError` is the
error Python raises when `>` compares an `int` with `None`;
`unboundLocalError` is raised by `get_time_range` when neither session branch
assigned `ny_start`.  `invalidSessionType` is modelled from the spec: it is the
named error the specification's taxonomy assigns to unrecognized session
types; the source never raises it. -/
inductive PyErr where
  | valueError
  | typeError
  | unboundLocalError
  | invalidSessionType
deriving DecidableEq, Repr

/-- A calendar date, as produced by `datetime.date`. -/
structure Date where
  y : Nat
  m : Nat
  d : Nat
deriving DecidableEq, Repr

/-- Numeric key giving `datetime.date`'s ordering (lexicographic on
year, month, day) for calendar dates. -/
def dateKey (a : Date) : Nat := a.y * 10000 + a.m * 100 + a.d

/-- `datetime.date` comparison `a <= b`. -/
def dateLe (a b : Date) : Prop := dateKey a ≤ dateKey b

/-- `datetime.date` comparison `a < b`. -/
def dateLt (a b : Date) : Prop := dateKey a < dateKey b

instance (a b : Date) : Decidable (dateLe a b) := by unfold dateLe; infer_instance

instance (a b : Date) : Decidable (dateLt a b) := by unfold dateLt; infer_instance

/-- Gregorian leap-year test, as in `calendar.isleap`. -/
def isLeap (y : Nat) : Bool := (y % 4 = 0 && y % 100 ≠ 0) || y % 400 = 0

/-- Number of days in a month of the proleptic Gregorian calendar. -/
def daysInMonth (y m : Nat) : Nat :=
  if m = 2 then (if isLeap y then 29 else 28)
  else if m = 4 || m = 6 || m = 9 || m = 11 then 30
  else 31

/-- Validity of a `(y, m, d)` triple as a `datetime.date`
(`datetime.MINYEAR = 1`). -/
def validDate (y m d : Nat) : Bool :=
  1 ≤ y && y ≤ 9999 && 1 ≤ m && m ≤ 12 && 1 ≤ d && d ≤ daysInMonth y m

/-- Day count of a Gregorian date measured from 0000-03-01
(Hinnant's civil-from-days construction, restricted to years CE, which is all
the repository ever handles).  `rataDie 1970 1 1 = 719468`. -/
def rataDie (y m d : Nat) : Nat :=
  let y' := if m ≤ 2 then y - 1 else y
  let era := y' / 400
  let yoe := y' % 400
  let mp := (m + 9) % 12
  let doy := (153 * mp + 2) / 5 + d - 1
  let doe := yoe * 365 + yoe / 4 - yoe / 100 + doy
  era * 146097 + doe

/-- Day of week, `0 = Sunday`, ..., `6 = Saturday`. -/
def dayOfWeek (y m d : Nat) : Nat := (rataDie y m d + 3) % 7

/-- Day of month of the second Sunday of March (US DST begins). -/
def secondSundayOfMarch (y : Nat) : Nat :=
  1 + (7 - dayOfWeek y 3 1) % 7 + 7

/-- Day of month of the first Sunday of November (US DST ends). -/
def firstSundayOfNovember (y : Nat) : Nat :=
  1 + (7 - dayOfWeek y 11 1) % 7

/-- Whether a naive New York wall-clock time is resolved by
`pytz.timezone("America/New_York").localize` (with its default
`is_dst=False`) to Eastern Daylight Time.  Post-2007 US rule: EDT from 3:00
wall time on the second Sunday of March up to (exclusive) 1:00 wall time on
the first Sunday of November; ambiguous and nonexistent wall times resolve to
standard time under `is_dst=False`. -/
def nyIsDst (dt : Date) (hh mm : Nat) : Bool :=
  let t := (dt.m * 100 + dt.d) * 10000 + hh * 100 + mm
  let dstStart := (3 * 100 + secondSundayOfMarch dt.y) * 10000 + 300
  let dstEnd := (11 * 100 + firstSundayOfNovember dt.y) * 10000 + 100
  dstStart ≤ t && t < dstEnd

/-- A UTC instant, in minutes since the Unix epoch.  A timezone-aware Python
`datetime` is modelled by the instant it denotes (aware datetimes compare and
convert by instant). -/
def utcOf (y m d hh mm : Nat) : Int :=
  ((rataDie y m d : Int) - 719468) * 1440 + hh * 60 + mm

/-- `NY.localize(datetime.combine(date, time(hh, mm)))`, as the UTC instant
it denotes: New York is UTC-4 under daylight time and UTC-5 under standard
time. -/
def nyLocalize (dt : Date) (hh mm : Nat) : Int :=
  utcOf dt.y dt.m dt.d hh mm + (if nyIsDst dt hh mm then 240 else 300)

/-- `date - timedelta(days=1)`. -/
def prevDay (dt : Date) : Date :=
  if 2 ≤ dt.d then ⟨dt.y, dt.m, dt.d - 1⟩
  else if dt.m = 1 then ⟨dt.y - 1, 12, 31⟩
  else ⟨dt.y, dt.m - 1, daysInMonth dt.y (dt.m - 1)⟩

/-- `generate_bars.get_time_range(time_type, target_date)`.
The electronic session runs 18:00 New York wall time on the previous day to
16:15 on `target_date`; the regular session runs 9:30 to 16:15 on
`target_date`.  When `time_type` is neither `"electronic"` nor `"regular"`,
neither branch assigns `ny_start`/`ny_end` and the trailing
`return ny_start, ny_end` raises `UnboundLocalError`. -/
def get_time_range (time_type : String) (target_date : Date) :
    Except PyErr (Int × Int) :=
  if time_type = "electronic" then
    .ok (nyLocalize (prevDay target_date) 18 0, nyLocalize target_date 16 15)
  else if time_type = "regular" then
    .ok (nyLocalize target_date 9 30, nyLocalize target_date 16 15)
  else
    .error .unboundLocalError

/-- `preprocess.get_utc_start_end(date)`: the reconciliation driver's wider
window, 18:00 New York wall time on the previous day to 17:00 on `date`,
as UTC instants. -/
def get_utc_start_end (dt : Date) : Int × Int :=
  (nyLocalize (prevDay dt) 18 0, nyLocalize dt 17 0)

/-- The first eight characters of `cs` when they are all ASCII digits
(what `\d{8}` consumes at a fixed position), together with the rest. -/
def takeDigits8 (cs : List Char) : Option (List Char × List Char) :=
  let pre := cs.take 8
  if pre.length = 8 && pre.all Char.isDigit then some (pre, cs.drop 8)
  else none

/-- Attempt to match the pattern `(\d{8})-(\d{8})` anchored at the head of
`cs`, returning the two digit groups. -/
def matchRangeAt (cs : List Char) : Option (List Char × List Char) :=
  match takeDigits8 cs with
  | none => none
  | some (d1, rest) =>
    match rest with
    | '-' :: rest2 =>
      match takeDigits8 rest2 with
      | none => none
      | some (d2, _) => some (d1, d2)
    | _ => none

/-- `re.search(r'(\d{8})-(\d{8})', s)`: leftmost match of the range
pattern. -/
def searchRangePat : List Char → Option (List Char × List Char)
  | [] => none
  | c :: cs =>
    match matchRangeAt (c :: cs) with
    | some r => some r
    | none => searchRangePat cs

/-- Attempt to match `\d{8}` anchored at the head of `cs`. -/
def matchSingleAt (cs : List Char) : Option (List Char) :=
  match takeDigits8 cs with
  | none => none
  | some (d1, _) => some d1

/-- `re.search(r'(\d{8})', s)`: leftmost run of eight digits. -/
def searchSinglePat : List Char → Option (List Char)
  | [] => none
  | c :: cs =>
    match matchSingleAt (c :: cs) with
    | some r => some r
    | none => searchSinglePat cs

/-- Numeric value of a digit string. -/
def digitsToNat (cs : List Char) : Nat :=
  cs.foldl (fun acc c => acc * 10 + (c.toNat - 48)) 0

/-- `datetime.strptime(s, '%Y%m%d').date()` on an eight-digit string: the
first four digits are the year, the next two the month, the last two the day;
raises `ValueError` when the triple is not a valid `datetime.date`.  (On an
eight-digit input, CPython's `strptime` succeeds exactly when this fixed-width
split is a valid date, because no variable-width split of `%Y%m%d` can consume
all eight characters.) -/
def strptimeYmd (cs : List Char) : Except PyErr Date :=
  let y := digitsToNat (cs.take 4)
  let m := digitsToNat ((cs.drop 4).take 2)
  let d := digitsToNat (cs.drop 6)
  if validDate y m d then .ok ⟨y, m, d⟩ else .error .valueError

/-- `preprocess.parse_file_dates(filename)`.  A `YYYYMMDD-YYYYMMDD` range
anywhere in the name takes precedence; otherwise a single `YYYYMMDD`;
otherwise `(None, None)`, modelled as `none`.  A matched eight-digit group
that is not a valid calendar date makes `strptime` raise `ValueError`, which
`parse_file_dates` does not catch. -/
def parse_file_dates (filename : String) : Except PyErr (Option (Date × Date)) :=
  match searchRangePat filename.data with
  | some (a, b) =>
    match strptimeYmd a with
    | .error e => .error e
    | .ok s =>
      match strptimeYmd b with
      | .error e => .error e
      | .ok e => .ok (some (s, e))
  | none =>
    match searchSinglePat filename.data with
    | some a =>
      match strptimeYmd a with
      | .error e => .error e
      | .ok dt => .ok (some (dt, dt))
    | none => .ok none

/-- Insertion into Python's `set`, modelled as a duplicate-free list in
insertion order (the claims proved about it are order-independent). -/
def addToSet (acc : List String) (f : String) : List String :=
  if f ∈ acc then acc else acc ++ [f]

/-- Loop body accumulation of `preprocess.find_related_files`:
`usDate`/`ueDate` are `utc_start.date()` and `utc_end.date()`. -/
def findRelatedFilesGo (usDate ueDate : Date) :
    List String → List String → Except PyErr (List String)
  | [], acc => .ok acc
  | f :: fs, acc =>
    match parse_file_dates f with
    | .error e => .error e
    | .ok none => findRelatedFilesGo usDate ueDate fs acc
    | .ok (some (s, e)) =>
      let acc1 := if dateLe s usDate ∧ dateLe usDate e then addToSet acc f else acc
      let acc2 := if dateLe s ueDate ∧ dateLe ueDate e then addToSet acc1 f else acc1
      findRelatedFilesGo usDate ueDate fs acc2

/-- `preprocess.find_related_files(file_list, utc_start, utc_end)`.  Only the
calendar dates of the two instants are consulted, so the embedding takes the
dates directly.  A file is kept when either date falls inside the file name's
inclusive date range; the `matched_files` set makes the result
duplicate-free. -/
def find_related_files (file_list : List String) (usDate ueDate : Date) :
    Except PyErr (List String) :=
  findRelatedFilesGo usDate ueDate file_list []

/-- A raw trade record, restricted to the fields the reconciliation logic of
`get_related_trade_records` reads: `ts_event` (already normalized to a UTC
ISO-8601 string by the chunk loop), `instrument_id`, `price` (integer, price
times `10^9`) and `size`.  The passthrough columns (`rtype`, `publisher_id`,
`action`, `side`, `depth`, `flags`, `ts_in_delta`, `sequence`, optional
`symbol`) are carried through the pipeline unread and are omitted. -/
structure TradeRecord where
  tsEvent : String
  instrumentId : Int
  price : Int
  size : Int
deriving DecidableEq, Repr

/-- Lexicographic `<=` on character lists: how Python compares the ISO-8601
`ts_event` strings when `sort_values('ts_event')` orders a group. -/
def charListLe : List Char → List Char → Bool
  | [], _ => true
  | _ :: _, [] => false
  | a :: as, b :: bs =>
    if a < b then true
    else if a = b then charListLe as bs
    else false

/-- `ts_event` comparison between two records. -/
def tsLe (r1 r2 : TradeRecord) : Bool :=
  charListLe r1.tsEvent.data r2.tsEvent.data

/-- Stable insertion of a record into a `ts_event`-sorted list. -/
def insertByTs (r : TradeRecord) : List TradeRecord → List TradeRecord
  | [] => [r]
  | x :: xs => if tsLe x r then x :: insertByTs r xs else r :: x :: xs

/-- Stable sort of a group's records by `ts_event`
(`group_df.sort_values('ts_event')`). -/
def sortByTs : List TradeRecord → List TradeRecord
  | [] => []
  | r :: rs => insertByTs r (sortByTs rs)

/-- One `instrument_id` group's aggregates, as the loop body of
`get_related_trade_records` computes them: `popen`/`pclose` are the prices of
the first and last rows after sorting by `ts_event`, `phigh`/`plow` the
extremes, `vol` the summed `size`. -/
structure GroupAgg where
  instId : Int
  popen : Int
  phigh : Int
  plow : Int
  pclose : Int
  vol : Int
deriving DecidableEq, Repr

/-- Price of the last record of a nonempty list (`iloc[-1]`). -/
def lastPrice (r : TradeRecord) : List TradeRecord → Int
  | [] => r.price
  | x :: xs => lastPrice x xs

/-- Aggregates of one group from its rows sorted by `ts_event` (head `r`,
tail `rs`). -/
def aggOfSorted (instId : Int) (r : TradeRecord) (rs : List TradeRecord) : GroupAgg :=
  { instId := instId
    popen := r.price
    phigh := rs.foldl (fun acc x => max acc x.price) r.price
    plow := rs.foldl (fun acc x => min acc x.price) r.price
    pclose := lastPrice r rs
    vol := rs.foldl (fun acc x => acc + x.size) r.size }

/-- Aggregates of the group of `instId`, or `none` for an empty row list. -/
def aggOfRows (instId : Int) (rows : List TradeRecord) : Option GroupAgg :=
  match sortByTs rows with
  | [] => none
  | r :: rs => some (aggOfSorted instId r rs)

/-- The distinct instrument ids of `records` in order of first appearance. -/
def idsInOrder (records : List TradeRecord) : List Int :=
  records.foldl (fun acc r => if r.instrumentId ∈ acc then acc else acc ++ [r.instrumentId]) []

/-- Ascending insertion sort on integers (pandas `groupby` sorts group keys
ascending). -/
def insertInt (n : Int) : List Int → List Int
  | [] => [n]
  | x :: xs => if x ≤ n then x :: insertInt n xs else n :: x :: xs

/-- Ascending sort of a list of integers. -/
def sortInts : List Int → List Int
  | [] => []
  | n :: ns => insertInt n (sortInts ns)

/-- `full_data.groupby('instrument_id')` followed by the per-group aggregate
computation: one `GroupAgg` per distinct `instrument_id`, in ascending id
order, each aggregating that id's rows (kept in original relative order, then
sorted by `ts_event`). -/
def groupByInstrument (records : List TradeRecord) : List GroupAgg :=
  (sortInts (idsInOrder records)).filterMap
    (fun i => aggOfRows i (records.filter (fun r => r.instrumentId = i)))

/-- A reference day's open/high/low/close, read from the reference file
(integer price units; the raw trade prices carry nine extra decimal digits,
hence the `* 10^9` rescaling at comparison time). -/
structure RefOHLC where
  o : Int
  h : Int
  l : Int
  c : Int
deriving DecidableEq, Repr

/-- The `ohlc_flag` list of `get_related_trade_records`: exact integer
equality of each group aggregate against the reference value times `10^9`. -/
def ohlcFlags (ref : RefOHLC) (g : GroupAgg) : List Bool :=
  [g.popen == ref.o * 10 ^ 9,
   g.phigh == ref.h * 10 ^ 9,
   g.plow == ref.l * 10 ^ 9,
   g.pclose == ref.c * 10 ^ 9]

/-- `sum(ohlc_flag)`: the number of reference OHLC fields the group matches
exactly. -/
def ohlcCount (ref : RefOHLC) (g : GroupAgg) : Nat :=
  (ohlcFlags ref g).count true

/-- The loosely scoped loop state of the winner-selection loop:
`maxOhlc` is `max_ohlc`, `cand` is `candidate_volume` (`none` standing for
the initial `[None, None]`), `savedInfo2`/`savedInfo1` are `saved_info_2` /
`saved_info_1` (set only in the 2-match / 1-match branches), and `warnings`
counts the in-loop `WARNING: ... multiple contracts` prints. -/
structure LoopState where
  maxOhlc : Nat
  cand : Option (Int × Int)
  warnings : Nat
  savedInfo2 : Option GroupAgg
  savedInfo1 : Option GroupAgg
deriving DecidableEq, Repr

/-- The initial loop state: `max_ohlc = 0`, `candidate_volume = [None, None]`. -/
def initLoopState : LoopState :=
  { maxOhlc := 0, cand := none, warnings := 0, savedInfo2 := none, savedInfo1 := none }

/-- One iteration of the winner-selection loop of
`get_related_trade_records`, for the group `g`.  The `continue` statements
skip the trailing `max_ohlc = max(max_ohlc, sum(ohlc_flag))` update, but only
when the current count is below `max_ohlc`, so the update is applied
uniformly here.  Comparing a volume against a `candidate_volume` that is
still `None` would raise `TypeError` in Python; that path is modelled as an
explicit error (and proved unreachable). -/
def loopStep (ref : RefOHLC) (st : LoopState) (g : GroupAgg) : Except PyErr LoopState :=
  let s := ohlcCount ref g
  let newMax := max st.maxOhlc s
  if 3 ≤ s then
    if st.maxOhlc < s then
      .ok { st with cand := some (g.instId, g.vol), maxOhlc := newMax }
    else
      match st.cand with
      | none => .error .typeError
      | some (_, v) =>
        if v < g.vol then
          .ok { st with cand := some (g.instId, g.vol), warnings := st.warnings + 1,
                        maxOhlc := newMax }
        else
          .ok { st with warnings := st.warnings + 1, maxOhlc := newMax }
  else if s = 2 then
    if s < st.maxOhlc then .ok st
    else if st.maxOhlc < 2 then
      .ok { st with cand := some (g.instId, g.vol), savedInfo2 := some g, maxOhlc := newMax }
    else
      match st.cand with
      | none => .error .typeError
      | some (_, v) =>
        if v < g.vol then
          .ok { st with cand := some (g.instId, g.vol), savedInfo2 := some g, maxOhlc := newMax }
        else
          .ok { st with maxOhlc := newMax }
  else if s = 1 then
    if s < st.maxOhlc then .ok st
    else if st.maxOhlc < 1 then
      .ok { st with cand := some (g.instId, g.vol), savedInfo1 := some g, maxOhlc := newMax }
    else
      match st.cand with
      | none => .error .typeError
      | some (_, v) =>
        if v < g.vol then
          .ok { st with cand := some (g.instId, g.vol), savedInfo1 := some g, maxOhlc := newMax }
        else
          .ok { st with maxOhlc := newMax }
  else
    .ok st

/-- The whole winner-selection loop, iterating `loopStep` over the group
list. -/
def runLoop (ref : RefOHLC) (st : LoopState) : List GroupAgg → Except PyErr LoopState
  | [] => .ok st
  | g :: gs =>
    match loopStep ref st g with
    | .error e => .error e
    | .ok st' => runLoop ref st' gs

/-- `volume_sum.idxmax()` over the grouped data, computed before the loop:
the instrument id of the first group (in ascending-id order) attaining the
maximal summed size.  On an empty frame pandas raises `ValueError`; the same
day also dies earlier with `ValueError` in `pd.concat` when no related file
contributed a chunk.  This function never consults the reference values. -/
def fallbackId : List GroupAgg → Except PyErr Int
  | [] => .error .valueError
  | g :: gs => .ok (gs.foldl (fun best x => if best.vol < x.vol then x else best) g).instId

/-- The spec's `match_quality` classification of a reconciliation outcome:
which branch of the final selection ran.  (`FullMatch` / `PartialMatch` /
`VolumeFallback` are names from the specification; in the source they
correspond to `max_ohlc == 4`, `1 <= max_ohlc <= 3`, and the
`max_ohlc == 0` fallback branch.) -/
inductive MatchQuality where
  | fullMatch
  | partialMatch (count : Nat)
  | volumeFallback
deriving DecidableEq, Repr

/-- Result of one reference day's reconciliation: the instrument id whose
records are written (`candidate_volume[0]`, hence an `Option`), the spec's
`match_quality` for the branch taken, and the number of in-loop
multiple-strong-match warnings printed. -/
structure DayResult where
  winnerId : Option Int
  quality : MatchQuality
  warnings : Nat
deriving DecidableEq, Repr

/-- The per-day reconciliation of `get_related_trade_records`, after the
candidate rows have been grouped: compute the volume fallback id (pandas
raises before the loop when there is no data at all), run the selection loop,
then select `candidate_volume[0]` when `max_ohlc >= 1` and the largest-volume
instrument otherwise. -/
def reconcile (ref : RefOHLC) (groups : List GroupAgg) : Except PyErr DayResult :=
  match fallbackId groups with
  | .error e => .error e
  | .ok fid =>
    match runLoop ref initLoopState groups with
    | .error e => .error e
    | .ok st =>
      if 1 ≤ st.maxOhlc then
        .ok { winnerId := st.cand.map Prod.fst
              quality := if st.maxOhlc = 4 then .fullMatch else .partialMatch st.maxOhlc
              warnings := st.warnings }
      else
        .ok { winnerId := some fid, quality := .volumeFallback, warnings := st.warnings }

/-- One reference day's processing from its in-window candidate rows:
group by `instrument_id` and reconcile.  With zero candidate rows the
Python dies with `ValueError` (empty `pd.concat` when no related file
matched, otherwise `idxmax` on the empty volume series). -/
def processDay (ref : RefOHLC) (records : List TradeRecord) : Except PyErr DayResult :=
  reconcile ref (groupByInstrument records)

/-- One row of the reference table: its New York trading date and OHLC. -/
structure RefRow where
  date : Date
  ohlc : RefOHLC
deriving DecidableEq, Repr

/-- Outcome of one reference row in the batch loop. -/
inductive RowOutcome where
  | skippedDateRange
  | skippedProcessed
  | wrote (result : DayResult)
deriving DecidableEq, Repr

/-- Lower bound of the hard-coded date filter in
`get_related_trade_records`. -/
def filterLo : Date := ⟨2017, 4, 3⟩

/-- Upper bound of the hard-coded date filter. -/
def filterHi : Date := ⟨2025, 9, 28⟩

/-- One iteration of the reference-row loop of `get_related_trade_records`:
rows outside the hard-coded `[2017-04-03, 2025-09-28]` window are skipped with
a bare `continue` (before any file is consulted, with no failure or warning
recorded); rows whose output file already exists (`is_processed`) are skipped;
otherwise the day is extracted and reconciled.  `records` abstracts the rows
the chunked CSV reads collect for the day's window. -/
def processRow (processed : List Date) (row : RefRow) (records : List TradeRecord) :
    Except PyErr RowOutcome :=
  if dateLt row.date filterLo ∨ dateLt filterHi row.date then .ok .skippedDateRange
  else if row.date ∈ processed then .ok .skippedProcessed
  else
    match processDay row.ohlc records with
    | .error e => .error e
    | .ok r => .ok (.wrote r)

/-- The batch driver: process the reference rows in order, threading the set
of dates whose output files exist.  No exception is caught anywhere in
`get_related_trade_records`, so an error on one row aborts the whole batch. -/
def runBatch : List (RefRow × List TradeRecord) → List Date →
    Except PyErr (List (Date × RowOutcome))
  | [], _ => .ok []
  | (row, records) :: rest, processed =>
    match processRow processed row records with
    | .error e => .error e
    | .ok outcome =>
      let processed' :=
        match outcome with
        | .wrote _ => row.date :: processed
        | _ => processed
      match runBatch rest processed' with
      | .error e => .error e
      | .ok outs => .ok ((row.date, outcome) :: outs)

/-- Whether either window date lies in the inclusive file-name date range
`[s, e]` (the candidate condition of `find_related_files`). -/
def inWindow (usDate ueDate s e : Date) : Prop :=
  (dateLe s usDate ∧ dateLe usDate e) ∨ (dateLe s ueDate ∧ dateLe ueDate e)

instance (usDate ueDate s e : Date) : Decidable (inWindow usDate ueDate s e) := by
  unfold inWindow; infer_instance

/-- A file name that `find_related_files` selects: its name parses to a date
range containing one of the two window dates. -/
def fileSelected (usDate ueDate : Date) (f : String) : Prop :=
  ∃ s e, parse_file_dates f = .ok (some (s, e)) ∧ inWindow usDate ueDate s e

/-! ### Concrete inputs used by individual claims -/

/-- Reference OHLC `(10, 20, 5, 15)` used for the full-match-loses input. -/
def c1Ref : RefOHLC := ⟨10, 20, 5, 15⟩

/-- Candidate rows for two instruments: instrument 1 reproduces the reference
OHLC exactly (total size 5); instrument 2 matches open/high/low but not close
(total size 10). -/
def c1Records : List TradeRecord :=
  [⟨"2018-04-07T22:01:00Z", 1, 10000000000, 1⟩, ⟨"2018-04-07T22:01:00Z", 2, 10000000000, 3⟩,
   ⟨"2018-04-07T23:00:00Z", 1, 20000000000, 1⟩, ⟨"2018-04-07T23:00:00Z", 2, 20000000000, 3⟩,
   ⟨"2018-04-08T01:00:00Z", 1, 5000000000, 1⟩, ⟨"2018-04-08T01:00:00Z", 2, 5000000000, 3⟩,
   ⟨"2018-04-08T19:00:00Z", 1, 15000000000, 2⟩, ⟨"2018-04-08T19:00:00Z", 2, 7000000000, 1⟩]

/-- The aggregates `get_related_trade_records` computes for instrument 1 of
`c1Records`. -/
def c1Group1 : GroupAgg := ⟨1, 10000000000, 20000000000, 5000000000, 15000000000, 5⟩

/-- The aggregates for instrument 2 of `c1Records`. -/
def c1Group2 : GroupAgg := ⟨2, 10000000000, 20000000000, 5000000000, 7000000000, 10⟩

/-- A reference row inside the hard-coded date window, used for the
zero-candidate batch-abort witness. -/
def c2Row : RefRow := ⟨⟨2019, 5, 6⟩, ⟨1, 2, 3, 4⟩⟩

/-- A later reference day (with one candidate row) that the aborted batch
never reaches. -/
def c2Rest : List (RefRow × List TradeRecord) :=
  [(⟨⟨2019, 5, 7⟩, ⟨1, 2, 3, 4⟩⟩, [⟨"2019-05-07T00:00:00Z", 3, 1000000000, 2⟩])]

/-- Second day's candidate rows for the zero-candidate counterexample. -/
def c2RecsB : List TradeRecord := [⟨"2018-04-08T00:00:00Z", 5, 1000000000, 2⟩]

/-- Reference OHLC for the volume-fallback witness. -/
def c3Ref : RefOHLC := ⟨10, 20, 5, 15⟩

/-- Two groups matching no reference field; the second has the larger
volume. -/
def c3Groups : List GroupAgg := [⟨3, 1, 1, 1, 1, 4⟩, ⟨9, 2, 2, 2, 2, 6⟩]

/-- The strictly-largest-volume group of `c3Groups`. -/
def c3Best : GroupAgg := ⟨9, 2, 2, 2, 2, 6⟩

/-- Reference OHLC for the tie-break witness. -/
def c4Ref : RefOHLC := ⟨10, 20, 5, 15⟩

/-- A group matching open/high/low (3 of 4 fields), volume 4. -/
def c4Group1 : GroupAgg := ⟨7, 10000000000, 20000000000, 5000000000, 1, 4⟩

/-- A second group matching open/high/low, volume 6. -/
def c4Group2 : GroupAgg := ⟨11, 10000000000, 20000000000, 5000000000, 2, 6⟩

/-- Reference OHLC for the exact-equality witness. -/
def c5Ref : RefOHLC := ⟨10, 20, 5, 15⟩

/-- A group whose open is one price unit above the scaled reference open and
whose other three fields match exactly. -/
def c5Group : GroupAgg := ⟨1, 10000000001, 20000000000, 5000000000, 15000000000, 2⟩

/-- The file-name list of the spec's file-range-matching example. -/
def c6Files : List String :=
  ["glbx-mdp3-20180406.trades.csv", "glbx-mdp3-20180408-20180430.trades.csv"]

/-- Reference OHLC for the loop-invariant witness. -/
def c10Ref : RefOHLC := ⟨10, 20, 5, 15⟩

/-- A single group matching only the reference open (1 of 4 fields). -/
def c10Group : GroupAgg := ⟨7, 10000000000, 1, 1, 1, 3⟩

/-! ## Helper lemmas about the winner-selection loop -/

theorem loopStep_zero (ref : RefOHLC) (st : LoopState) (g : GroupAgg)
    (hc : ohlcCount ref g = 0) : loopStep ref st g = .ok st := by
  simp [loopStep, hc]

theorem loopStep_strong_new (ref : RefOHLC) (st : LoopState) (g : GroupAgg)
    (hc : ohlcCount ref g = 3) (hm : st.maxOhlc ≤ 2) :
    loopStep ref st g = .ok { st with cand := some (g.instId, g.vol), maxOhlc := 3 } := by
  simp only [loopStep, hc]
  rw [if_pos (by norm_num), if_pos (by omega)]
  congr 2
  omega

theorem loopStep_skip (ref : RefOHLC) (st : LoopState) (g : GroupAgg)
    (hc : ohlcCount ref g ≤ 2) (hm : 3 ≤ st.maxOhlc) : loopStep ref st g = .ok st := by
  simp only [loopStep]
  rw [if_neg (by omega)]
  rcases Nat.lt_or_ge (ohlcCount ref g) 1 with h1 | h1
  · rw [if_neg (by omega), if_neg (by omega)]
  · rcases Nat.lt_or_ge (ohlcCount ref g) 2 with h2 | h2
    · rw [if_neg (by omega), if_pos (by omega), if_pos (by omega)]
    · rw [if_pos (by omega), if_pos (by omega)]

theorem loopStep_strong_tie (ref : RefOHLC) (st : LoopState) (g : GroupAgg)
    (a v : Int)
    (hc : ohlcCount ref g = 3) (hm : st.maxOhlc = 3) (hcand : st.cand = some (a, v)) :
    loopStep ref st g =
      .ok { st with
            cand := if v < g.vol then some (g.instId, g.vol) else some (a, v),
            warnings := st.warnings + 1, maxOhlc := 3 } := by
  simp only [loopStep, hc, hm, hcand]
  rw [if_pos (by norm_num), if_neg (by omega)]
  by_cases hv : v < g.vol
  · rw [if_pos hv, if_pos hv]
    norm_num
  · rw [if_neg hv, if_neg hv]
    rw [← hcand]
    norm_num

theorem loopStep_low (ref : RefOHLC) (st : LoopState) (g : GroupAgg)
    (hc : ohlcCount ref g ≤ 2) (hm : st.maxOhlc ≤ 2)
    (hcand : 1 ≤ st.maxOhlc → st.cand.isSome) :
    ∃ st', loopStep ref st g = .ok st' ∧ st'.maxOhlc ≤ 2 ∧
      st'.warnings = st.warnings ∧ (1 ≤ st'.maxOhlc → st'.cand.isSome) := by
  have h3 : ohlcCount ref g = 0 ∨ ohlcCount ref g = 1 ∨ ohlcCount ref g = 2 := by omega
  cases hc0 : st.cand with
  | none =>
    have hm0 : st.maxOhlc = 0 := by
      by_contra hne
      have hx := hcand (by omega)
      rw [hc0] at hx
      simp at hx
    rcases h3 with h | h | h <;>
      simp only [loopStep, h, hc0] <;>
      split_ifs <;>
      first
        | (exfalso; omega)
        | exact ⟨st, rfl, hm, rfl, hcand⟩
        | exact ⟨_, rfl, by simp [Nat.max_le]; omega, rfl, by intro hx; simp⟩
  | some av =>
    obtain ⟨a, v⟩ := av
    rcases h3 with h | h | h <;>
      simp only [loopStep, h, hc0] <;>
      split_ifs <;>
      first
        | (exfalso; omega)
        | exact ⟨st, rfl, hm, rfl, hcand⟩
        | exact ⟨_, rfl, by simp [Nat.max_le]; omega, rfl, by intro hx; simp [hc0]⟩

theorem runLoop_cons (ref : RefOHLC) (st st' : LoopState) (g : GroupAgg)
    (gs : List GroupAgg) (h : loopStep ref st g = .ok st') :
    runLoop ref st (g :: gs) = runLoop ref st' gs := by
  simp [runLoop, h]

theorem runLoop_append (ref : RefOHLC) (st st' : LoopState) (l1 l2 : List GroupAgg)
    (h : runLoop ref st l1 = .ok st') :
    runLoop ref st (l1 ++ l2) = runLoop ref st' l2 := by
  induction l1 generalizing st with
  | nil =>
    simp only [runLoop] at h
    cases h
    simp
  | cons g gs ih =>
    simp only [runLoop] at h ⊢
    cases hstep : loopStep ref st g with
    | error e => rw [hstep] at h; cases h
    | ok st1 =>
      rw [hstep] at h
      exact ih st1 h

theorem runLoop_zero (ref : RefOHLC) (st : LoopState) (l : List GroupAgg)
    (h : ∀ g ∈ l, ohlcCount ref g = 0) : runLoop ref st l = .ok st := by
  induction l with
  | nil => rfl
  | cons g gs ih =>
    rw [runLoop_cons ref st st g gs (loopStep_zero ref st g (h g (by simp)))]
    exact ih (fun x hx => h x (by simp [hx]))

theorem runLoop_skip (ref : RefOHLC) (st : LoopState) (l : List GroupAgg)
    (hm : 3 ≤ st.maxOhlc) (h : ∀ g ∈ l, ohlcCount ref g ≤ 2) :
    runLoop ref st l = .ok st := by
  induction l with
  | nil => rfl
  | cons g gs ih =>
    rw [runLoop_cons ref st st g gs (loopStep_skip ref st g (h g (by simp)) hm)]
    exact ih (fun x hx => h x (by simp [hx]))

theorem runLoop_low (ref : RefOHLC) (l : List GroupAgg) (st : LoopState)
    (h : ∀ g ∈ l, ohlcCount ref g ≤ 2) (hm : st.maxOhlc ≤ 2)
    (hcand : 1 ≤ st.maxOhlc → st.cand.isSome) :
    ∃ st', runLoop ref st l = .ok st' ∧ st'.maxOhlc ≤ 2 ∧
      st'.warnings = st.warnings ∧ (1 ≤ st'.maxOhlc → st'.cand.isSome) := by
  induction l generalizing st with
  | nil => exact ⟨st, rfl, hm, rfl, hcand⟩
  | cons g gs ih =>
    obtain ⟨st1, hstep, hm1, hw1, hc1⟩ :=
      loopStep_low ref st g (h g (by simp)) hm hcand
    obtain ⟨st2, hrun, hm2, hw2, hc2⟩ := ih st1 (fun x hx => h x (by simp [hx])) hm1 hc1
    exact ⟨st2, by rw [runLoop_cons ref st st1 g gs hstep]; exact hrun, hm2,
      by rw [hw2, hw1], hc2⟩

theorem loopStep_inv (ref : RefOHLC) (st : LoopState) (g : GroupAgg) (S : List GroupAgg)
    (hin : 1 ≤ st.maxOhlc → ∃ g' ∈ S, st.cand = some (g'.instId, g'.vol)) :
    ∃ st', loopStep ref st g = .ok st' ∧
      (1 ≤ st'.maxOhlc → ∃ g' ∈ S ++ [g], st'.cand = some (g'.instId, g'.vol)) := by
  have h4 : ohlcCount ref g = 0 ∨ ohlcCount ref g = 1 ∨ ohlcCount ref g = 2 ∨
      3 ≤ ohlcCount ref g := by omega
  by_cases hmax : 1 ≤ st.maxOhlc
  · obtain ⟨g', hg'S, hg'eq⟩ := hin hmax
    rcases h4 with h | h | h | h <;>
      simp only [loopStep, h, hg'eq] <;>
      split_ifs <;>
      first
        | (exfalso; omega)
        | exact ⟨_, rfl, fun hx => ⟨g, List.mem_append.mpr (Or.inr (by simp)), rfl⟩⟩
        | exact ⟨_, rfl, fun hx => ⟨g', List.mem_append.mpr (Or.inl hg'S), hg'eq⟩⟩
        | exact ⟨_, rfl, fun hx => ⟨g', List.mem_append.mpr (Or.inl hg'S), rfl⟩⟩
  · have hm0 : st.maxOhlc = 0 := by omega
    rcases h4 with h | h | h | h <;>
      simp only [loopStep, h] <;>
      split_ifs <;>
      first
        | (exfalso; omega)
        | exact ⟨st, rfl, fun hx => absurd hx hmax⟩
        | exact ⟨_, rfl, fun hx => ⟨g, List.mem_append.mpr (Or.inr (by simp)), rfl⟩⟩

theorem runLoop_inv (ref : RefOHLC) (l : List GroupAgg) (st : LoopState)
    (S : List GroupAgg)
    (hin : 1 ≤ st.maxOhlc → ∃ g' ∈ S, st.cand = some (g'.instId, g'.vol)) :
    ∃ st', runLoop ref st l = .ok st' ∧
      (1 ≤ st'.maxOhlc → ∃ g' ∈ S ++ l, st'.cand = some (g'.instId, g'.vol)) := by
  induction l generalizing st S with
  | nil => simpa using ⟨st, rfl, hin⟩
  | cons g gs ih =>
    obtain ⟨st1, hstep, hin1⟩ := loopStep_inv ref st g S hin
    obtain ⟨st2, hrun, hin2⟩ := ih st1 (S ++ [g]) hin1
    refine ⟨st2, by rw [runLoop_cons ref st st1 g gs hstep]; exact hrun, ?_⟩
    intro hx
    obtain ⟨g', hg', heq⟩ := hin2 hx
    exact ⟨g', by simpa using hg', heq⟩

theorem foldl_pick_max (g0 gbest : GroupAgg) (gs : List GroupAgg)
    (hmem : gbest = g0 ∨ gbest ∈ gs)
    (hdom : ∀ g, (g = g0 ∨ g ∈ gs) → g ≠ gbest → g.vol < gbest.vol) :
    gs.foldl (fun best x => if best.vol < x.vol then x else best) g0 = gbest := by
  induction gs generalizing g0 with
  | nil =>
    rcases hmem with h | h
    · simp [h]
    · simp at h
  | cons x t ih =>
    simp only [List.foldl_cons]
    apply ih
    · by_cases hx : x = gbest
      · by_cases h0 : g0 = gbest
        · left
          rw [hx, h0]
          split <;> rfl
        · have hlt := hdom g0 (Or.inl rfl) h0
          left
          rw [if_pos (by rw [hx]; exact hlt)]
          exact hx.symm
      · rcases hmem with h0 | hmem'
        · have hlt := hdom x (Or.inr (by simp)) hx
          left
          rw [if_neg (by rw [← h0]; omega)]
          exact h0
        · rcases List.mem_cons.mp hmem' with h1 | h1
          · exact absurd h1.symm hx
          · right; exact h1
    · intro g hg hne
      apply hdom g _ hne
      rcases hg with hg | hg
      · subst hg
        split
        · right; simp
        · left; rfl
      · right; simp [hg]

theorem fallbackId_of_max (groups : List GroupAgg) (gbest : GroupAgg)
    (hmem : gbest ∈ groups)
    (hdom : ∀ g ∈ groups, g ≠ gbest → g.vol < gbest.vol) :
    fallbackId groups = .ok gbest.instId := by
  cases groups with
  | nil => simp at hmem
  | cons g0 gs =>
    simp only [fallbackId, Except.ok.injEq]
    rw [foldl_pick_max g0 gbest gs (by simpa using hmem)
      (fun g hg hne => hdom g (by rcases hg with h | h <;> simp [h]) hne)]

theorem fallbackId_ok (groups : List GroupAgg) (hne : groups ≠ []) :
    ∃ fid, fallbackId groups = .ok fid := by
  cases groups with
  | nil => exact absurd rfl hne
  | cons g0 gs => exact ⟨_, rfl⟩

/-! ## Claim theorems -/

/-- C7: `get_time_range` for the electronic session opens at 18:00 New York
wall time on `date - 1` and closes at 16:15 New York wall time on `date`,
converted to UTC respecting DST; in particular for `date = 2018-04-02` the
window is `[2018-04-01T22:00:00Z, 2018-04-02T20:15:00Z)` (EDT, UTC-4), and
for the standard-time date `2018-01-15` it is
`[2018-01-14T23:00:00Z, 2018-01-15T21:15:00Z)` (EST, UTC-5). -/
theorem spec_c7_session_window :
    (∀ d : Date, get_time_range "electronic" d =
      .ok (nyLocalize (prevDay d) 18 0, nyLocalize d 16 15)) ∧
    get_time_range "electronic" ⟨2018, 4, 2⟩ =
      .ok (utcOf 2018 4 1 22 0, utcOf 2018 4 2 20 15) ∧
    get_time_range "electronic" ⟨2018, 1, 15⟩ =
      .ok (utcOf 2018 1 14 23 0, utcOf 2018 1 15 21 15) :=
  ⟨fun _ => rfl, by decide, by decide⟩

/-- C8 counterexample: at the unrecognized session type `"session"`,
`get_time_range` fails with `UnboundLocalError` — an unrelated Python error —
and not with the named `InvalidSessionType` failure the claim asserts. -/
theorem spec_c8_counterexample :
    get_time_range "session" ⟨2019, 7, 4⟩ = .error .unboundLocalError ∧
    get_time_range "session" ⟨2019, 7, 4⟩ ≠ .error .invalidSessionType := by
  constructor
  · rfl
  · intro h
    exact PyErr.noConfusion (Except.error.inj h)

/-- C8 amended: for every session-type argument that is neither
`"electronic"` nor `"regular"`, `get_time_range` fails for that call, but
with `UnboundLocalError` (`ny_start` referenced before assignment) rather
than a named `InvalidSessionType` error. -/
theorem spec_c8_amended (s : String) (d : Date)
    (h1 : s ≠ "electronic") (h2 : s ≠ "regular") :
    get_time_range s d = .error .unboundLocalError := by
  simp [get_time_range, h1, h2]

/-- C8 witness: the amended claim evaluated at the concrete session type
`"opening"`. -/
theorem spec_c8_witness :
    "opening" ≠ "electronic" ∧ "opening" ≠ "regular" ∧
    get_time_range "opening" ⟨2018, 4, 2⟩ = .error .unboundLocalError :=
  ⟨by decide, by decide, spec_c8_amended "opening" ⟨2018, 4, 2⟩ (by decide) (by decide)⟩

/-- C9: a reference row whose date is strictly before 2017-04-03 or strictly
after 2025-09-28 is skipped by the hard-coded date filter before any file is
consulted: the row's outcome is `skippedDateRange` (no reconciliation, no
output, no failure or warning), and the batch simply proceeds with the
remaining rows. -/
theorem spec_c9_date_filter (processed : List Date) (row : RefRow)
    (records : List TradeRecord)
    (h : dateLt row.date filterLo ∨ dateLt filterHi row.date) :
    processRow processed row records = .ok .skippedDateRange ∧
    ∀ rest, runBatch ((row, records) :: rest) processed =
      Except.map (fun outs => (row.date, RowOutcome.skippedDateRange) :: outs)
        (runBatch rest processed) := by
  have hp : processRow processed row records = .ok .skippedDateRange := by
    simp [processRow, h]
  refine ⟨hp, fun rest => ?_⟩
  simp only [runBatch, hp]
  cases runBatch rest processed <;> simp [Except.map]

/-- C9 witness: the date filter evaluated at the out-of-range reference date
2016-01-01. -/
theorem spec_c9_witness :
    dateLt (⟨2016, 1, 1⟩ : Date) filterLo ∧
    processRow [] ⟨⟨2016, 1, 1⟩, ⟨2400, 2410, 2390, 2405⟩⟩
      [⟨"2016-01-01T00:00:00Z", 1, 1, 1⟩] = .ok .skippedDateRange :=
  ⟨by decide,
   (spec_c9_date_filter [] ⟨⟨2016, 1, 1⟩, ⟨2400, 2410, 2390, 2405⟩⟩
     [⟨"2016-01-01T00:00:00Z", 1, 1, 1⟩] (Or.inl (by decide))).1⟩

/-- C5: each `ohlc_flag` entry is true exactly when the group aggregate
equals the corresponding reference value scaled by exactly `10^9`, with
integer equality and no tolerance; an open that is one price unit above or
below the scaled reference does not count as a match. -/
theorem spec_c5_exact_equality (ref : RefOHLC) (g : GroupAgg) :
    ((ohlcFlags ref g).getD 0 false = true ↔ g.popen = ref.o * 10 ^ 9) ∧
    ((ohlcFlags ref g).getD 1 false = true ↔ g.phigh = ref.h * 10 ^ 9) ∧
    ((ohlcFlags ref g).getD 2 false = true ↔ g.plow = ref.l * 10 ^ 9) ∧
    ((ohlcFlags ref g).getD 3 false = true ↔ g.pclose = ref.c * 10 ^ 9) ∧
    (g.popen = ref.o * 10 ^ 9 + 1 → (ohlcFlags ref g).getD 0 false = false) ∧
    (g.popen = ref.o * 10 ^ 9 - 1 → (ohlcFlags ref g).getD 0 false = false) := by
  refine ⟨by simp [ohlcFlags], by simp [ohlcFlags], by simp [ohlcFlags],
    by simp [ohlcFlags], ?_, ?_⟩ <;>
    intro hx <;> simp [ohlcFlags, hx]

/-- C5 witness: the flag computation evaluated at a group whose open is one
unit above the scaled reference open and whose high matches exactly. -/
theorem spec_c5_witness :
    (ohlcFlags c5Ref c5Group).getD 0 false = false ∧
    (ohlcFlags c5Ref c5Group).getD 1 false = true :=
  ⟨(spec_c5_exact_equality c5Ref c5Group).2.2.2.2.1 (by decide),
   ((spec_c5_exact_equality c5Ref c5Group).2.1).mpr (by decide)⟩

/-- C1 (bug evaluation): on `c1Records` the grouping yields an instrument
(id 1) whose open/high/low/close all equal the reference values times `10^9`
(a 4-field match), yet the reconciliation selects instrument 2 — a group
matching only 3 fields but carrying a larger volume — while reporting the
full-match branch (`max_ohlc = 4`) and printing the multiple-strong-match
warning.  The `>= 3` branch of the loop compares volumes whenever the match
count does not exceed `max_ohlc`, so a later 3-field match with greater
volume replaces an already-found exact match, contradicting the claim. -/
theorem spec_c1_full_match_loses :
    groupByInstrument c1Records = [c1Group1, c1Group2] ∧
    ohlcCount c1Ref c1Group1 = 4 ∧
    ohlcCount c1Ref c1Group2 = 3 ∧
    c1Group1.vol < c1Group2.vol ∧
    c1Group1.instId ≠ c1Group2.instId ∧
    processDay c1Ref c1Records =
      .ok { winnerId := some c1Group2.instId, quality := .fullMatch, warnings := 1 } := by
  refine ⟨by decide, by decide, by decide, by decide, by decide, by decide⟩

/-- C10: the winner-selection loop never raises (the volume comparison never
sees the initial `[None, None]` accumulator), and whenever the final
`max_ohlc` is at least 1 the accumulator `candidate_volume` holds the
instrument id and summed volume of one of the processed groups, so the final
winner read in that branch is a valid instrument id. -/
theorem spec_c10_loop_invariant (ref : RefOHLC) (groups : List GroupAgg) :
    (∃ st, runLoop ref initLoopState groups = .ok st) ∧
    ∀ st, runLoop ref initLoopState groups = .ok st → 1 ≤ st.maxOhlc →
      ∃ g ∈ groups, st.cand = some (g.instId, g.vol) := by
  obtain ⟨st', hrun, hinv⟩ := runLoop_inv ref groups initLoopState []
    (fun hx => absurd hx (by simp [initLoopState]))
  refine ⟨⟨st', hrun⟩, fun st hst hmax => ?_⟩
  rw [hrun] at hst
  cases hst
  simpa using hinv hmax

/-- C10 witness: the loop invariant evaluated at a single group matching one
reference field. -/
theorem spec_c10_witness :
    (∃ st, runLoop c10Ref initLoopState [c10Group] = .ok st) ∧
    ∃ g ∈ [c10Group],
      (⟨1, some (7, 3), 0, none, some c10Group⟩ : LoopState).cand =
        some (g.instId, g.vol) :=
  ⟨(spec_c10_loop_invariant c10Ref [c10Group]).1,
   (spec_c10_loop_invariant c10Ref [c10Group]).2
     ⟨1, some (7, 3), 0, none, some c10Group⟩ (by decide) (by decide)⟩

/-- C3: when every group matches zero reference OHLC fields, the selected
winner is exactly the instrument with the strictly largest total volume, the
result is the `VolumeFallback` branch, and the fallback id is produced by
`fallbackId`, a function of the groups alone that never consults the
reference values (it is computed before the match-count scan). -/
theorem spec_c3_volume_fallback (ref : RefOHLC) (groups : List GroupAgg)
    (gbest : GroupAgg) (hmem : gbest ∈ groups)
    (hzero : ∀ g ∈ groups, ohlcCount ref g = 0)
    (hdom : ∀ g ∈ groups, g ≠ gbest → g.vol < gbest.vol) :
    reconcile ref groups =
      .ok { winnerId := some gbest.instId, quality := .volumeFallback, warnings := 0 } ∧
    fallbackId groups = .ok gbest.instId := by
  have hfb := fallbackId_of_max groups gbest hmem hdom
  have hrun := runLoop_zero ref initLoopState groups hzero
  refine ⟨?_, hfb⟩
  simp only [reconcile, hfb]
  rw [hrun]
  simp [initLoopState]

/-- C3 witness: the volume fallback evaluated at two zero-match groups with
volumes 4 and 6. -/
theorem spec_c3_witness :
    c3Best ∈ c3Groups ∧
    reconcile c3Ref c3Groups =
      .ok { winnerId := some c3Best.instId, quality := .volumeFallback, warnings := 0 } :=
  ⟨by decide,
   (spec_c3_volume_fallback c3Ref c3Groups c3Best (by decide) (by decide) (by decide)).1⟩

/-- C2 counterexample: a batch whose first reference day (2018-04-07, inside
the hard-coded window, not yet processed) has zero candidate rows aborts with
an uncaught `ValueError`; no `NoCandidateData` failure is recorded and the
second day is never processed — the batch does not proceed as the claim
asserts. -/
theorem spec_c2_counterexample :
    runBatch [(⟨⟨2018, 4, 7⟩, ⟨10, 20, 5, 15⟩⟩, []),
              (⟨⟨2018, 4, 8⟩, ⟨10, 20, 5, 15⟩⟩, c2RecsB)] [] =
      .error .valueError ∧
    ∀ outs, runBatch [(⟨⟨2018, 4, 7⟩, ⟨10, 20, 5, 15⟩⟩, []),
              (⟨⟨2018, 4, 8⟩, ⟨10, 20, 5, 15⟩⟩, c2RecsB)] [] ≠ .ok outs := by
  refine ⟨by rfl, fun outs h => ?_⟩
  rw [show runBatch [(⟨⟨2018, 4, 7⟩, ⟨10, 20, 5, 15⟩⟩, []),
              (⟨⟨2018, 4, 8⟩, ⟨10, 20, 5, 15⟩⟩, c2RecsB)] [] =
      .error .valueError from rfl] at h
  exact Except.noConfusion h

/-- C2 amended: a reference day (inside the hard-coded window, not yet
processed) with zero candidate trade records raises an uncaught `ValueError`
(empty `pd.concat`, otherwise `idxmax` of the empty volume series); no output
file is written for that date, but instead of a named `NoCandidateData`
failure with the batch proceeding, the exception aborts the entire batch. -/
theorem spec_c2_zero_candidates_abort (row : RefRow)
    (rest : List (RefRow × List TradeRecord)) (processed : List Date)
    (hlo : ¬ dateLt row.date filterLo) (hhi : ¬ dateLt filterHi row.date)
    (hnp : row.date ∉ processed) :
    processRow processed row [] = .error .valueError ∧
    runBatch ((row, []) :: rest) processed = .error .valueError := by
  have hp : processRow processed row [] = .error .valueError := by
    simp only [processRow]
    rw [if_neg (not_or.mpr ⟨hlo, hhi⟩), if_neg hnp]
    rfl
  exact ⟨hp, by simp only [runBatch, hp]⟩

/-- C2 witness: the zero-candidate abort evaluated at the in-range reference
day 2019-05-06 followed by one pending day. -/
theorem spec_c2_witness :
    ¬ dateLt c2Row.date filterLo ∧ ¬ dateLt filterHi c2Row.date ∧
    c2Row.date ∉ ([] : List Date) ∧
    runBatch ((c2Row, []) :: c2Rest) [] = .error .valueError :=
  ⟨by decide, by decide, by decide,
   (spec_c2_zero_candidates_abort c2Row c2Rest [] (by decide) (by decide)
     (by decide)).2⟩

/-- C4: when exactly two groups match exactly 3 of the 4 reference fields
(and every other group matches at most 2, so none matches 4), reconciliation
succeeds with the `PartialMatch 3` branch, records exactly one
multiple-strong-match warning, and selects whichever of the two groups has
the strictly greater summed size. -/
theorem spec_c4_tie_break (ref : RefOHLC) (pre mid post : List GroupAgg)
    (g1 g2 : GroupAgg)
    (hpre : ∀ g ∈ pre, ohlcCount ref g ≤ 2)
    (hmid : ∀ g ∈ mid, ohlcCount ref g ≤ 2)
    (hpost : ∀ g ∈ post, ohlcCount ref g ≤ 2)
    (h1 : ohlcCount ref g1 = 3) (h2 : ohlcCount ref g2 = 3) :
    ∃ r, reconcile ref (pre ++ (g1 :: (mid ++ (g2 :: post)))) = .ok r ∧
      r.quality = .partialMatch 3 ∧ r.warnings = 1 ∧
      (g1.vol < g2.vol → r.winnerId = some g2.instId) ∧
      (g2.vol < g1.vol → r.winnerId = some g1.instId) := by
  obtain ⟨st1, hrun1, hm1, hw1, hc1⟩ := runLoop_low ref pre initLoopState hpre
    (by norm_num [initLoopState]) (fun hx => absurd hx (by norm_num [initLoopState]))
  have hstep1 := loopStep_strong_new ref st1 g1 h1 hm1
  have hrunmid := runLoop_skip ref
    { st1 with cand := some (g1.instId, g1.vol), maxOhlc := 3 } mid (by simp) hmid
  have hstep2 := loopStep_strong_tie ref
    { st1 with cand := some (g1.instId, g1.vol), maxOhlc := 3 } g2 g1.instId g1.vol
    h2 (by simp) (by simp)
  have hrunpost := runLoop_skip ref
    { st1 with
      cand := if g1.vol < g2.vol then some (g2.instId, g2.vol) else some (g1.instId, g1.vol),
      warnings := st1.warnings + 1, maxOhlc := 3 } post (by simp) hpost
  have hall : runLoop ref initLoopState (pre ++ (g1 :: (mid ++ (g2 :: post)))) =
      .ok { st1 with
            cand := if g1.vol < g2.vol then some (g2.instId, g2.vol)
                    else some (g1.instId, g1.vol),
            warnings := st1.warnings + 1, maxOhlc := 3 } := by
    rw [runLoop_append ref initLoopState st1 pre _ hrun1]
    rw [runLoop_cons ref st1 _ g1 _ hstep1]
    rw [runLoop_append ref _ _ mid _ hrunmid]
    rw [runLoop_cons ref _ _ g2 post hstep2]
    exact hrunpost
  have hne : pre ++ (g1 :: (mid ++ (g2 :: post))) ≠ ([] : List GroupAgg) := by simp
  obtain ⟨fid, hfid⟩ := fallbackId_ok _ hne
  refine ⟨{ winnerId := if g1.vol < g2.vol then some g2.instId else some g1.instId,
            quality := .partialMatch 3, warnings := 1 }, ?_, rfl, rfl, ?_, ?_⟩
  · simp only [reconcile, hfid]
    rw [hall]
    by_cases hv : g1.vol < g2.vol
    · rw [if_pos hv, if_pos hv]
      simp [hw1, initLoopState]
    · rw [if_neg hv, if_neg hv]
      simp [hw1, initLoopState]
  · intro hv
    show (if g1.vol < g2.vol then some g2.instId else some g1.instId) = some g2.instId
    rw [if_pos hv]
  · intro hv
    show (if g1.vol < g2.vol then some g2.instId else some g1.instId) = some g1.instId
    rw [if_neg (by omega)]

/-- C4 witness: the tie-break evaluated at exactly two 3-field-match groups
with volumes 4 and 6: the larger-volume group (id 11) wins and one warning is
recorded. -/
theorem spec_c4_witness :
    ohlcCount c4Ref c4Group1 = 3 ∧ ohlcCount c4Ref c4Group2 = 3 ∧
    c4Group1.vol < c4Group2.vol ∧
    (∃ r, reconcile c4Ref [c4Group1, c4Group2] = .ok r ∧
      r.quality = .partialMatch 3 ∧ r.warnings = 1 ∧
      (c4Group1.vol < c4Group2.vol → r.winnerId = some c4Group2.instId) ∧
      (c4Group2.vol < c4Group1.vol → r.winnerId = some c4Group1.instId)) :=
  ⟨by decide, by decide, by decide,
   spec_c4_tie_break c4Ref [] [] [] c4Group1 c4Group2 (by simp) (by simp) (by simp)
     (by decide) (by decide)⟩

theorem addToSet_mem (acc : List String) (f x : String) :
    x ∈ addToSet acc f ↔ x ∈ acc ∨ x = f := by
  by_cases hf : f ∈ acc
  · rw [addToSet, if_pos hf]
    constructor
    · exact Or.inl
    · rintro (h | rfl)
      · exact h
      · exact hf
  · rw [addToSet, if_neg hf]
    simp

theorem addToSet_nodup (acc : List String) (f : String) (h : acc.Nodup) :
    (addToSet acc f).Nodup := by
  by_cases hf : f ∈ acc
  · rw [addToSet, if_pos hf]
    exact h
  · rw [addToSet, if_neg hf]
    simp [List.nodup_append, h, hf]

theorem findRelatedFilesGo_spec (usDate ueDate : Date) (fs : List String) :
    ∀ acc : List String,
    (∀ f ∈ fs, ∃ r, parse_file_dates f = .ok r) → acc.Nodup →
    ∃ l, findRelatedFilesGo usDate ueDate fs acc = .ok l ∧ l.Nodup ∧
      ∀ f, f ∈ l ↔ (f ∈ acc ∨ (f ∈ fs ∧ fileSelected usDate ueDate f)) := by
  induction fs with
  | nil =>
    intro acc _ hnd
    refine ⟨acc, rfl, hnd, fun f => ?_⟩
    simp
  | cons f0 fs ih =>
    intro acc hok hnd
    obtain ⟨r, hr⟩ := hok f0 (by simp)
    cases r with
    | none =>
      simp only [findRelatedFilesGo, hr]
      obtain ⟨l, hgo, hlnd, hiff⟩ := ih acc (fun f hf => hok f (by simp [hf])) hnd
      refine ⟨l, hgo, hlnd, fun f => ?_⟩
      rw [hiff f]
      constructor
      · rintro (h | ⟨hmem, hsel⟩)
        · exact Or.inl h
        · exact Or.inr ⟨by simp [hmem], hsel⟩
      · rintro (h | ⟨hmem, hsel⟩)
        · exact Or.inl h
        · rcases List.mem_cons.mp hmem with rfl | hm
          · obtain ⟨s, e, hps, _⟩ := hsel
            rw [hr] at hps
            exact Option.noConfusion (Except.ok.inj hps)
          · exact Or.inr ⟨hm, hsel⟩
    | some se =>
      obtain ⟨s0, e0⟩ := se
      simp only [findRelatedFilesGo, hr]
      have hnd1 : (if dateLe s0 usDate ∧ dateLe usDate e0 then addToSet acc f0
          else acc).Nodup := by
        split
        · exact addToSet_nodup acc f0 hnd
        · exact hnd
      have hnd2 : (if dateLe s0 ueDate ∧ dateLe ueDate e0 then
          addToSet (if dateLe s0 usDate ∧ dateLe usDate e0 then addToSet acc f0 else acc) f0
          else (if dateLe s0 usDate ∧ dateLe usDate e0 then addToSet acc f0
                else acc)).Nodup := by
        split
        · exact addToSet_nodup _ f0 hnd1
        · exact hnd1
      have hmem2 : ∀ x, x ∈ (if dateLe s0 ueDate ∧ dateLe ueDate e0 then
          addToSet (if dateLe s0 usDate ∧ dateLe usDate e0 then addToSet acc f0 else acc) f0
          else (if dateLe s0 usDate ∧ dateLe usDate e0 then addToSet acc f0 else acc)) ↔
          x ∈ acc ∨ (x = f0 ∧ inWindow usDate ueDate s0 e0) := by
        intro x
        by_cases h1 : dateLe s0 usDate ∧ dateLe usDate e0 <;>
          by_cases h2 : dateLe s0 ueDate ∧ dateLe ueDate e0 <;>
          simp [h1, h2, addToSet_mem, inWindow]
      obtain ⟨l, hgo, hlnd, hiff⟩ := ih _ (fun f hf => hok f (by simp [hf])) hnd2
      refine ⟨l, hgo, hlnd, fun f => ?_⟩
      rw [hiff f]
      have hself : fileSelected usDate ueDate f0 ↔ inWindow usDate ueDate s0 e0 := by
        constructor
        · rintro ⟨s, e, hps, hw⟩
          rw [hr] at hps
          have hse : (s0, e0) = (s, e) := Option.some.inj (Except.ok.inj hps)
          cases hse
          exact hw
        · intro hw
          exact ⟨s0, e0, hr, hw⟩
      rw [hmem2 f]
      constructor
      · rintro ((h | ⟨rfl, hw⟩) | ⟨hm, hs⟩)
        · exact Or.inl h
        · exact Or.inr ⟨by simp, hself.mpr hw⟩
        · exact Or.inr ⟨by simp [hm], hs⟩
      · rintro (h | ⟨hm, hs⟩)
        · exact Or.inl (Or.inl h)
        · rcases List.mem_cons.mp hm with rfl | hm'
          · exact Or.inl (Or.inr ⟨rfl, hself.mp hs⟩)
          · exact Or.inr ⟨hm', hs⟩

/-- C6 amended: when every file name's matched eight-digit groups parse as
valid dates, `find_related_files` succeeds and returns a duplicate-free list
containing exactly those names whose parsed inclusive date range contains one
of the two window dates (names with no eight-digit run are skipped).  (The
unqualified claim is false: a name whose digits are not a valid date raises
`ValueError`, see the counterexample.) -/
theorem spec_c6_candidate_files (files : List String) (usDate ueDate : Date)
    (hok : ∀ f ∈ files, ∃ r, parse_file_dates f = .ok r) :
    ∃ l, find_related_files files usDate ueDate = .ok l ∧ l.Nodup ∧
      ∀ f, f ∈ l ↔ f ∈ files ∧ fileSelected usDate ueDate f := by
  obtain ⟨l, hgo, hnd, hiff⟩ :=
    findRelatedFilesGo_spec usDate ueDate files [] hok List.nodup_nil
  refine ⟨l, hgo, hnd, fun f => ?_⟩
  rw [hiff f]
  simp

/-- C6 witness: the spec's example — with window dates 2018-04-07/2018-04-08,
exactly `glbx-mdp3-20180408-20180430.trades.csv` is returned. -/
theorem spec_c6_witness :
    (∀ f ∈ c6Files, ∃ r, parse_file_dates f = .ok r) ∧
    find_related_files c6Files ⟨2018, 4, 7⟩ ⟨2018, 4, 8⟩ =
      .ok ["glbx-mdp3-20180408-20180430.trades.csv"] ∧
    (∃ l, find_related_files c6Files ⟨2018, 4, 7⟩ ⟨2018, 4, 8⟩ = .ok l ∧ l.Nodup ∧
      ∀ f, f ∈ l ↔ f ∈ c6Files ∧ fileSelected ⟨2018, 4, 7⟩ ⟨2018, 4, 8⟩ f) := by
  have hok : ∀ f ∈ c6Files, ∃ r, parse_file_dates f = .ok r := by
    intro f hf
    simp only [c6Files, List.mem_cons, List.mem_singleton] at hf
    rcases hf with rfl | rfl | hf
    · exact ⟨_, rfl⟩
    · exact ⟨_, rfl⟩
    · simp at hf
  exact ⟨hok, by decide, spec_c6_candidate_files c6Files ⟨2018, 4, 7⟩ ⟨2018, 4, 8⟩ hok⟩

/-- C6 counterexample: `"report-99999999.csv"` contains no parseable
`YYYYMMDD` date (month 99), yet `find_related_files` raises `ValueError`
instead of skipping it without error as claimed. -/
theorem spec_c6_counterexample :
    find_related_files ["report-99999999.csv"] ⟨2018, 4, 7⟩ ⟨2018, 4, 8⟩ =
      .error .valueError ∧
    find_related_files ["report-99999999.csv"] ⟨2018, 4, 7⟩ ⟨2018, 4, 8⟩ ≠
      .ok [] := by
  refine ⟨by rfl, fun h => ?_⟩
  rw [show find_related_files ["report-99999999.csv"] ⟨2018, 4, 7⟩ ⟨2018, 4, 8⟩ =
      .error .valueError from rfl] at h
  exact Except.noConfusion h
